import Mathlib

/-!
Verification of the foreach-mutation evaluation engine
(`pkg/engine/handlers/mutation/common.go`): a shallow embedding of
`forEachMutator.mutateForEach`, `forEachMutator.mutateElements`,
`buildRuleResponse` and `buildSuccessMessage`, together with models of the
external collaborators they consume (JSON context store, list evaluator,
precondition checker, single-element mutator, patch composer), and proofs
about the embedded program.
-/

namespace KyvernoMutation

/-- `engineapi.RuleStatus` as used by `common.go`:
`RuleStatusPass`, `RuleStatusFail`, `RuleStatusError`, `RuleStatusSkip`. -/
inductive RuleStatus : Type where
  | pass
  | fail
  | error
  | skip
deriving DecidableEq, Repr

/-- Modelled from the spec: the Element Context (§2), a stack-like variable
store supporting `checkpoint()`, `restore()`, `reset()` and `addResource(obj)`
(`JSONContext` lives outside `src/`).  `state` is the current variable-binding
state (abstract type `V`), `saved` the checkpoint stack. -/
structure JSONContext (V : Type) where
  state : V
  saved : List V
deriving DecidableEq, Repr

/-- Modelled from the spec: `Checkpoint` pushes the current state on the
checkpoint stack ("push on entering a spec's element loop"). -/
def JSONContext.checkpoint {V : Type} (c : JSONContext V) : JSONContext V :=
  { state := c.state, saved := c.state :: c.saved }

/-- Modelled from the spec: `Restore` pops the last checkpoint and makes it the
current state ("pop on leaving, regardless of success or failure"). -/
def JSONContext.restore {V : Type} (c : JSONContext V) : JSONContext V :=
  match c.saved with
  | [] => c
  | s :: rest => { state := s, saved := rest }

/-- Modelled from the spec: `Reset` reverts the current state to the last
checkpoint while keeping the checkpoint in place ("clears iteration-local
bindings"). -/
def JSONContext.reset {V : Type} (c : JSONContext V) : JSONContext V :=
  match c.saved with
  | [] => c
  | s :: rest => { state := s, saved := s :: rest }

/-- `kyvernov1.ForEachMutation` as consumed by `common.go`: the `List`
expression, the per-element `Context` declarations (opaque handle resolved by
the context loader), the `AnyAllConditions` preconditions (opaque handle
resolved by the precondition checker), `RawPatchStrategicMerge` (only its
nil-ness is inspected), and the raw nested `ForEachMutation`, carried here as
the result of `api.DeserializeJSONArray` on it (`none` = no nested foreach,
`some (.error e)` = raw bytes present but deserialization fails,
`some (.ok specs)` = deserializes to `specs`). -/
inductive ForEachSpec : Type where
  | mk (listExpr : String) (ctxId : Nat) (condId : Nat)
       (rawPatchStrategicMerge : Option String)
       (nested : Option (Except String (List ForEachSpec)))

/-- The `List` field (a JMESPath expression string). -/
def ForEachSpec.listExpr : ForEachSpec → String
  | .mk l _ _ _ _ => l

/-- The `Context` field, as an opaque handle. -/
def ForEachSpec.ctxId : ForEachSpec → Nat
  | .mk _ c _ _ _ => c

/-- The `AnyAllConditions` field, as an opaque handle. -/
def ForEachSpec.condId : ForEachSpec → Nat
  | .mk _ _ c _ _ => c

/-- The `RawPatchStrategicMerge` field (only nil-ness matters). -/
def ForEachSpec.rawPatchStrategicMerge : ForEachSpec → Option String
  | .mk _ _ _ r _ => r

/-- The nested `ForEachMutation` field, carried as its deserialization
result. -/
def ForEachSpec.nested : ForEachSpec → Option (Except String (List ForEachSpec))
  | .mk _ _ _ _ n => n

theorem ForEachSpec.sizeOf_nested {s : ForEachSpec} {l : List ForEachSpec}
    (h : s.nested = some (.ok l)) : sizeOf l < sizeOf s := by
  cases s with
  | mk a b c d n =>
    simp only [ForEachSpec.nested] at h
    subst h
    simp only [ForEachSpec.mk.sizeOf_spec, Option.some.sizeOf_spec, Except.ok.sizeOf_spec]
    omega

/-- The data of a non-nil `unstructured.Unstructured` object, restricted to
the accessors `common.go` reads (`GetKind`, `GetName`, `GetNamespace`). -/
structure ObjData where
  kind : String
  name : String
  ns : String
deriving DecidableEq, Repr

/-- `unstructured.Unstructured`: `Object` may be nil (`obj = none`). -/
structure Unstructured where
  obj : Option ObjData
deriving DecidableEq, Repr

/-- `GetKind` (empty string on a nil object). -/
def Unstructured.getKind (r : Unstructured) : String :=
  match r.obj with
  | none => ""
  | some o => o.kind

/-- `GetName` (empty string on a nil object). -/
def Unstructured.getName (r : Unstructured) : String :=
  match r.obj with
  | none => ""
  | some o => o.name

/-- `GetNamespace` (empty string on a nil object). -/
def Unstructured.getNamespace (r : Unstructured) : String :=
  match r.obj with
  | none => ""
  | some o => o.ns

/-- Modelled from the spec: `resourceInfo` (ResourceInfo, §3; its definition
is outside `src/`): the current working resource plus the target's
group-version-resource and subresource, read by `buildRuleResponse`. -/
structure resourceInfo where
  unstructured : Unstructured
  parentResourceGVR : String
  subresource : String
deriving DecidableEq, Repr

/-- A raw JSON patch (`[]byte`), kept opaque. -/
abbrev PatchRaw := String

/-- `jsonpatch.JsonPatchOperation`: one `{op, path, value}` JSON Patch entry;
the value is carried in serialized form. -/
structure PatchOperation where
  op : String
  path : String
  value : String
deriving DecidableEq, Repr

/-- Modelled from the spec: `mutate.Response` (MutationOutcome, §3; the
`mutate` package is outside `src/`): status, patched resource, ordered patch
sequence, message; an Error-status outcome additionally carries the
underlying cause (`none` models a nil Go error). -/
structure MutResponse where
  status : RuleStatus
  patchedResource : Unstructured
  patches : List PatchRaw
  message : String
  cause : Option String
deriving DecidableEq, Repr

/-- Modelled from the spec: `mutate.NewResponse(status, resource, patches,
msg)`. -/
def newResponse (status : RuleStatus) (resource : Unstructured)
    (patches : List PatchRaw) (msg : String) : MutResponse :=
  { status := status, patchedResource := resource, patches := patches,
    message := msg, cause := none }

/-- Modelled from the spec: `mutate.NewErrorResponse(msg, err)` — an
Error-status outcome with an empty resource, no patches, a descriptive
message and the underlying cause (`none` when the Go `err` is nil). -/
def newErrorResponse (msg : String) (cause : Option String) : MutResponse :=
  { status := .error, patchedResource := { obj := none }, patches := [],
    message := msg, cause := cause }

/-! ## Patch composer (spec §4.2)

`patch.FilterAndSortPatches` lives outside `src/`; it is modelled from the
spec: a deterministic, total ordering of the accumulated operations —
"add" operations on the same array ascend by index, "remove" operations
descend, everything else is keyed by the stable path string, with op and
value as final tie-breakers so the key determines the operation — followed
by same-path conflict resolution that keeps the last operation in the
chosen deterministic order. -/

/-- Split a character list on a separator (JSON Pointer segmentation). -/
def splitOnChar (sep : Char) : List Char → List (List Char)
  | [] => [[]]
  | c :: rest =>
    let r := splitOnChar sep rest
    if c = sep then [] :: r
    else
      match r with
      | [] => [[c]]
      | seg :: segs => (c :: seg) :: segs

/-- Rejoin segments with a separator. -/
def joinSegsChar (sep : Char) : List (List Char) → List Char
  | [] => []
  | [s] => s
  | s :: rest => s ++ sep :: joinSegsChar sep rest

/-- Read a nonempty all-digit segment as a decimal number. -/
def digitsToNat (cs : List Char) : Option Nat :=
  if cs = [] then none
  else if cs.all Char.isDigit then
    some (cs.foldl (fun n c => n * 10 + (c.toNat - 48)) 0)
  else none

/-- The path of the enclosing array/object: all JSON Pointer segments but the
last (as characters, so that comparisons compute). -/
def PatchOperation.parentPath (p : PatchOperation) : List Char :=
  joinSegsChar '/' (splitOnChar '/' p.path.data).dropLast

/-- The last JSON Pointer segment read as an array index, when numeric. -/
def PatchOperation.lastIdx (p : PatchOperation) : Option Nat :=
  digitsToNat ((splitOnChar '/' p.path.data).getLastD [])

/-- Modelled from the spec: index component of the sort key — ascending for
"add" (and anything else), descending (negated) for "remove"; `0` for
non-numeric final segments. -/
def PatchOperation.sortIndex (p : PatchOperation) : Int :=
  match p.lastIdx with
  | none => 0
  | some n => if p.op = "remove" then -(n : Int) else (n : Int)

/-- The deterministic, stable sort key of spec §4.2.  The trailing
`(op, path, value)` components make the key a total, injective function of
the operation, so the induced order is linear. -/
def PatchOperation.key (p : PatchOperation) :
    List Char ×ₗ Int ×ₗ List Char ×ₗ List Char ×ₗ List Char :=
  toLex (p.parentPath,
    toLex (p.sortIndex, toLex (p.op.data, toLex (p.path.data, p.value.data))))

/-- The deterministic total order on patch operations. -/
def patchLE (a b : PatchOperation) : Prop :=
  a.key ≤ b.key

instance : DecidableRel patchLE := fun a b =>
  inferInstanceAs (Decidable (a.key ≤ b.key))

theorem PatchOperation.key_inj {a b : PatchOperation} (h : a.key = b.key) :
    a = b := by
  cases a with
  | mk ao ap av =>
    cases b with
    | mk bo bp bv =>
      simp only [PatchOperation.key, toLex_inj, Prod.mk.injEq] at h
      simp only [PatchOperation.mk.injEq]
      exact ⟨String.ext h.2.2.1, String.ext h.2.2.2.1, String.ext h.2.2.2.2⟩

instance : IsTotal PatchOperation patchLE :=
  ⟨fun a b => le_total a.key b.key⟩

instance : IsTrans PatchOperation patchLE :=
  ⟨fun _ _ _ hab hbc => le_trans hab hbc⟩

instance : IsAntisymm PatchOperation patchLE :=
  ⟨fun _ _ hab hba => PatchOperation.key_inj (le_antisymm hab hba)⟩

instance : IsRefl PatchOperation patchLE :=
  ⟨fun a => le_refl a.key⟩

/-- Modelled from the spec: same-path conflict resolution — in the sorted
sequence, of each run of operations on the exact same path only the last one
(under the deterministic order) is kept ("last processed wins"). -/
def dedupLastByPath : List PatchOperation → List PatchOperation
  | [] => []
  | [p] => [p]
  | p :: q :: rest =>
    if p.path = q.path then dedupLastByPath (q :: rest)
    else p :: dedupLastByPath (q :: rest)

/-- Modelled from the spec: `patch.FilterAndSortPatches` (§4.2, outside
`src/`) — sort the accumulated operations by the deterministic key, then
resolve same-path conflicts by keeping the last operation in that order. -/
def FilterAndSortPatches (l : List PatchOperation) : List PatchOperation :=
  dedupLastByPath (l.insertionSort patchLE)

/-! ## External collaborators

The engine consumes its collaborators through narrow interfaces (spec §6).
They are passed to the embedded evaluator as a bundle of oracle functions
over an abstract context-state type `V` and element type `E`. -/

/-- The external interfaces exactly as the embedded control flow of
`common.go` uses them:
* `evalList` — `engineutils.EvaluateList(expr, jsonContext)`;
* `addElement` — `engineutils.AddElementToContext(copiedCtx, element, index,
  nesting, false)`, returning the child context state;
* `loadContext` — `f.contextLoader(ctx, foreach.Context, copiedCtx)`;
* `checkPre` — `internal.CheckPreconditions(logger, copiedCtx, conds)`;
* `leafMutate` — `mutate.ForEach(ruleName, foreach, copiedCtx, resource,
  element, logger)`;
* `parsePatch` / `marshalPatch` — `json.Unmarshal` into a
  `jsonpatch.JsonPatchOperation` and `MarshalJSON` back;
* `addResState` — the effect of `JSONContext().AddResource(obj)` on the
  context state (the error it may also return is only logged by the caller,
  see `Ext.go`). -/
structure ExtGo (V E : Type) where
  evalList : String → V → Except String (List (Option E))
  addElement : E → Nat → Nat → V → Except String V
  loadContext : Nat → V → Except String V
  checkPre : Nat → V → Except String Bool
  leafMutate : String → ForEachSpec → V → Unstructured → E → MutResponse
  parsePatch : PatchRaw → Except String PatchOperation
  marshalPatch : PatchOperation → Except String PatchRaw
  addResState : Unstructured → V → V

/-- The same collaborators with `AddResource` in its raw form: a call that
both returns an error (possibly nil) and leaves the context in a new state,
exactly as the Go interface exposes it. -/
structure Ext (V E : Type) where
  evalList : String → V → Except String (List (Option E))
  addElement : E → Nat → Nat → V → Except String V
  loadContext : Nat → V → Except String V
  checkPre : Nat → V → Except String Bool
  leafMutate : String → ForEachSpec → V → Unstructured → E → MutResponse
  parsePatch : PatchRaw → Except String PatchOperation
  marshalPatch : PatchOperation → Except String PatchRaw
  addResource : Unstructured → V → Option String × V

/-- Lowering `Ext` to what the control flow of `common.go` actually consumes:
at the only `AddResource` call site (lines 53-55) the returned error is
logged and discarded, so only the state component of `addResource` reaches
the evaluator. -/
def Ext.go {V E : Type} (ext : Ext V E) : ExtGo V E :=
  { evalList := ext.evalList, addElement := ext.addElement,
    loadContext := ext.loadContext, checkPre := ext.checkPre,
    leafMutate := ext.leafMutate, parsePatch := ext.parsePatch,
    marshalPatch := ext.marshalPatch,
    addResState := fun r v => (ext.addResource r v).2 }

/-- Lines 135-142: unmarshal each accumulated raw patch into a
`jsonpatch.JsonPatchOperation`, failing on the first malformed patch. -/
def convertPatches {V E : Type} (ext : ExtGo V E) :
    List PatchRaw → Except String (List PatchOperation)
  | [] => .ok []
  | p :: rest =>
    match ext.parsePatch p with
    | .error e => .error e
    | .ok jp =>
      match convertPatches ext rest with
      | .error e => .error e
      | .ok jps => .ok (jp :: jps)

/-- Lines 144-151: marshal each sorted patch back to raw form, failing on the
first marshalling error. -/
def marshalPatches {V E : Type} (ext : ExtGo V E) :
    List PatchOperation → Except String (List PatchRaw)
  | [] => .ok []
  | p :: rest =>
    match ext.marshalPatch p with
    | .error e => .error e
    | .ok data =>
      match marshalPatches ext rest with
      | .error e => .error e
      | .ok datas => .ok (data :: datas)

/-- Lines 73-75: when `RawPatchStrategicMerge` is non-nil,
`engineutils.InvertedElement` (outside `src/`; per the spec it reverses the
slice so elements are processed in reverse declared order) is applied to the
element list before iteration. -/
def orderedElements {E : Type} (foreach : ForEachSpec)
    (elements : List (Option E)) : List (Option E) :=
  if foreach.rawPatchStrategicMerge.isSome then elements.reverse else elements

/-! ## The ForEach evaluator (common.go lines 30-153)

The Go receiver fields of `forEachMutator` become explicit arguments:
`rule` (only its name reaches the element mutator), the foreach spec list,
the current `resourceInfo`, the nesting depth, and the shared `JSONContext`.
The shared context is threaded in and out of every call; each function
returns the response together with the context as the call leaves it. -/

mutual

/-- `forEachMutator.mutateForEach` (lines 30-65): iterate the rule's foreach
declarations, counting every declaration whose element evaluation did not
report Skip, folding patches and the patched resource, and finally reporting
Skip ("0 elements processed") or Pass ("`<applyCount>` elements
processed"). -/
def mutateForEach {V E : Type} (ext : ExtGo V E) (rule : String)
    (specs : List ForEachSpec) (res : resourceInfo) (nesting : Nat)
    (ctx : JSONContext V) : MutResponse × JSONContext V :=
  forEachLoop ext rule specs 0 [] res nesting ctx
  termination_by (sizeOf specs, 1, 0)

/-- The `for _, foreach := range f.foreach` loop of `mutateForEach`
(lines 34-57) with its accumulators `applyCount` and `allPatches` and the
mutable receiver field `f.resource` made explicit, followed by the epilogue
(lines 59-64). -/
def forEachLoop {V E : Type} (ext : ExtGo V E) (rule : String)
    (specs : List ForEachSpec) (applyCount : Nat) (allPatches : List PatchRaw)
    (res : resourceInfo) (nesting : Nat) (ctx : JSONContext V) :
    MutResponse × JSONContext V :=
  match specs with
  | [] =>
    let msg := s!"{applyCount} elements processed"
    if applyCount = 0 then
      (newResponse .skip res.unstructured allPatches msg, ctx)
    else
      (newResponse .pass res.unstructured allPatches msg, ctx)
  | foreach :: rest =>
    match ext.evalList foreach.listExpr ctx.state with
    | .error err =>
      let l := foreach.listExpr
      (newErrorResponse s!"failed to evaluate list {l}: {err}" (some err), ctx)
    | .ok elements =>
      let r := mutateElements ext rule foreach elements res nesting ctx
      let mutateResp := r.1
      let ctx1 := r.2
      if mutateResp.status = .error then
        -- line 43: the local `err` of the preceding EvaluateList call is nil
        -- on this path, so the error response carries no cause.
        (newErrorResponse "failed to mutate elements" none, ctx1)
      else if mutateResp.status ≠ .skip then
        let acc :=
          if mutateResp.patches ≠ [] then
            ({ res with unstructured := mutateResp.patchedResource },
              allPatches ++ mutateResp.patches)
          else (res, allPatches)
        let ctx2 :=
          { ctx1 with
            state := ext.addResState mutateResp.patchedResource ctx1.state }
        forEachLoop ext rule rest (applyCount + 1) acc.2 acc.1 nesting ctx2
      else
        forEachLoop ext rule rest applyCount allPatches res nesting ctx1
  termination_by (sizeOf specs, 0, 0)
  decreasing_by
    · exact Prod.Lex.left _ _ (by simp; omega)
    · decreasing_tactic
    · decreasing_tactic

/-- `forEachMutator.mutateElements` (lines 67-153): checkpoint the shared
context (line 68; the deferred `Restore` of line 69 is applied by
`elementLoop` on every return path), order the elements (lines 73-75), and
run the element loop. -/
def mutateElements {V E : Type} (ext : ExtGo V E) (rule : String)
    (foreach : ForEachSpec) (elements : List (Option E)) (res : resourceInfo)
    (nesting : Nat) (ctx : JSONContext V) : MutResponse × JSONContext V :=
  elementLoop ext rule foreach (orderedElements foreach elements) 0 res []
    nesting ctx.checkpoint
  termination_by (sizeOf foreach, 3, 0)

/-- The `for index, element := range elements` loop of `mutateElements`
(lines 77-134) with its accumulators `patchedResource` and `allPatches` made
explicit, followed by the patch-composition epilogue (lines 135-152).  Every
return path applies `JSONContext.restore`, embedding the deferred `Restore`
of line 69. -/
def elementLoop {V E : Type} (ext : ExtGo V E) (rule : String)
    (foreach : ForEachSpec) (elems : List (Option E)) (index : Nat)
    (patchedResource : resourceInfo) (allPatches : List PatchRaw)
    (nesting : Nat) (ctx : JSONContext V) : MutResponse × JSONContext V :=
  match elems with
  | [] =>
    match convertPatches ext allPatches with
    | .error err =>
      (newErrorResponse "failed to convert patch" (some err), ctx.restore)
    | .ok sortedPatches =>
      match marshalPatches ext (FilterAndSortPatches sortedPatches) with
      | .error err =>
        (newErrorResponse "failed to marshal patch" (some err), ctx.restore)
      | .ok finalPatches =>
        (newResponse .pass patchedResource.unstructured finalPatches "",
          ctx.restore)
  | none :: rest =>
    -- line 78: nil elements are skipped before the per-iteration Reset.
    elementLoop ext rule foreach rest (index + 1) patchedResource allPatches
      nesting ctx
  | some element :: rest =>
    let ctx1 := ctx.reset
    -- line 83: policyContext.Copy() — the child context is an isolated copy
    -- of the shared context's state; per-element bindings go to the copy.
    let child0 := ctx1.state
    match ext.addElement element index nesting child0 with
    | .error err =>
      (newErrorResponse
        s!"failed to add element to mutate.foreach[{index}].context"
        (some err), ctx1.restore)
    | .ok child1 =>
      match ext.loadContext foreach.ctxId child1 with
      | .error err =>
        (newErrorResponse
          s!"failed to load to mutate.foreach[{index}].context"
          (some err), ctx1.restore)
      | .ok child2 =>
        match ext.checkPre foreach.condId child2 with
        | .error err =>
          (newErrorResponse
            s!"failed to evaluate mutate.foreach[{index}].preconditions"
            (some err), ctx1.restore)
        | .ok false =>
          -- lines 99-102: preconditions not met — log and continue.
          elementLoop ext rule foreach rest (index + 1) patchedResource
            allPatches nesting ctx1
        | .ok true =>
          match h : foreach.nested with
          | some (.error err) =>
            (newErrorResponse "failed to deserialize foreach" (some err),
              ctx1.restore)
          | some (.ok nestedSpecs) =>
            -- lines 111-121: recurse with the shared (parent) context, the
            -- accumulated resource, and nesting + 1.
            let r := mutateForEach ext rule nestedSpecs patchedResource
              (nesting + 1) ctx1
            let mutateResp := r.1
            let ctx2 := r.2
            if mutateResp.status = .fail ∨ mutateResp.status = .error then
              (mutateResp, ctx2.restore)
            else
              let acc :=
                if mutateResp.patches ≠ [] then
                  ({ patchedResource with
                      unstructured := mutateResp.patchedResource },
                    allPatches ++ mutateResp.patches)
                else (patchedResource, allPatches)
              elementLoop ext rule foreach rest (index + 1) acc.1 acc.2
                nesting ctx2
          | none =>
            let mutateResp :=
              ext.leafMutate rule foreach child2 patchedResource.unstructured
                element
            if mutateResp.status = .fail ∨ mutateResp.status = .error then
              (mutateResp, ctx1.restore)
            else
              let acc :=
                if mutateResp.patches ≠ [] then
                  ({ patchedResource with
                      unstructured := mutateResp.patchedResource },
                    allPatches ++ mutateResp.patches)
                else (patchedResource, allPatches)
              elementLoop ext rule foreach rest (index + 1) acc.1 acc.2
                nesting ctx1
  termination_by (sizeOf foreach, 2, elems.length)
  decreasing_by
    · decreasing_tactic
    · decreasing_tactic
    · exact Prod.Lex.left _ _ (ForEachSpec.sizeOf_nested h)
    · decreasing_tactic
    · decreasing_tactic

end

/-- `mutateForEach` invoked with the raw collaborators: the error value that
`AddResource` returns at its only call site (lines 53-55) is logged and
discarded, so evaluation consumes `Ext.go`. -/
def mutateForEachExt {V E : Type} (ext : Ext V E) (rule : String)
    (specs : List ForEachSpec) (res : resourceInfo) (nesting : Nat)
    (ctx : JSONContext V) : MutResponse × JSONContext V :=
  mutateForEach ext.go rule specs res nesting ctx

/-! ## Response builder (common.go lines 155-183) -/

/-- `engineapi.RuleType`: only `engineapi.Mutation` is used here. -/
inductive RuleType : Type where
  | mutation
deriving DecidableEq, Repr

/-- `kyvernov1.Rule` as consumed by `buildRuleResponse`: only `rule.Name` and
`len(rule.Mutation.Targets)` are read. -/
structure Rule where
  name : String
  mutationTargets : Nat
deriving DecidableEq, Repr

/-- Modelled from the spec: `engineapi.RuleResponse` (RuleResult, §4.3;
`engineapi` is outside `src/`): name, rule type, message and status, plus the
optionally attached patches and patched-target reference. -/
structure RuleResponse where
  name : String
  ruleType : RuleType
  message : String
  status : RuleStatus
  patches : List PatchRaw
  patchedTarget : Option (Unstructured × String × String)
deriving DecidableEq, Repr

/-- Modelled from the spec: `engineapi.NewRuleResponse(name, ruleType, msg,
status)` — no patches, no patched target. -/
def newRuleResponse (name : String) (ruleType : RuleType) (msg : String)
    (status : RuleStatus) : RuleResponse :=
  { name := name, ruleType := ruleType, message := msg, status := status,
    patches := [], patchedTarget := none }

/-- Modelled from the spec: `resp.WithPatches(patches...)` attaches the
composed patch set to the result. -/
def RuleResponse.withPatches (resp : RuleResponse) (patches : List PatchRaw) :
    RuleResponse :=
  { resp with patches := patches }

/-- Modelled from the spec: `resp.WithPatchedTarget(resource, gvr,
subresource)` attaches the patched-target reference. -/
def RuleResponse.withPatchedTarget (resp : RuleResponse) (r : Unstructured)
    (gvr : String) (subresource : String) : RuleResponse :=
  { resp with patchedTarget := some (r, gvr, subresource) }

/-- `buildSuccessMessage` (lines 175-183). -/
def buildSuccessMessage (r : Unstructured) : String :=
  match r.obj with
  | none => "mutated resource"
  | some o =>
    let k := o.kind
    let n := o.name
    let ns := o.ns
    if ns = "" then s!"mutated {k}/{n}"
    else s!"mutated {k}/{n} in namespace {ns}"

/-- `buildRuleResponse` (lines 155-173). -/
def buildRuleResponse (rule : Rule) (mutateResp : MutResponse)
    (info : resourceInfo) : RuleResponse :=
  let message :=
    if mutateResp.status = .pass then
      buildSuccessMessage mutateResp.patchedResource
    else mutateResp.message
  let resp := newRuleResponse rule.name .mutation message mutateResp.status
  if mutateResp.status = .pass then
    let resp1 := resp.withPatches mutateResp.patches
    if rule.mutationTargets ≠ 0 then
      resp1.withPatchedTarget mutateResp.patchedResource
        info.parentResourceGVR info.subresource
    else resp1
  else resp

/-! ## Concrete instances used by witnesses and counterexamples -/

/-- A foreach spec with no strategic merge patch and no nested foreach. -/
def specJson : ForEachSpec := .mk "lst" 0 0 none none

/-- A foreach spec whose `RawPatchStrategicMerge` is non-nil. -/
def specStrat : ForEachSpec := .mk "lst" 0 0 (some "merge") none

/-- A concrete resource. -/
def resA : Unstructured :=
  { obj := some { kind := "Pod", name := "nginx", ns := "prod" } }

/-- A concrete `resourceInfo`. -/
def infoA : resourceInfo :=
  { unstructured := resA, parentResourceGVR := "v1/pods", subresource := "" }

/-- An "add" patch at index 0 of an array. -/
def patchA : PatchOperation :=
  { op := "add", path := "/spec/containers/0", value := "x" }

/-- An "add" patch at index 2 of the same array. -/
def patchB : PatchOperation :=
  { op := "add", path := "/spec/containers/2", value := "y" }

/-- An "add" patch at the exact same path as `patchA` (a conflict). -/
def patchC : PatchOperation :=
  { op := "add", path := "/spec/containers/0", value := "z" }

/-- A "remove" patch on a different subtree. -/
def patchD : PatchOperation :=
  { op := "remove", path := "/spec/volumes/1", value := "" }

/-- Collaborators over `V = Nat`, `E = Nat` that always succeed: every list
evaluates to `[]`, context operations are simple arithmetic on the state,
preconditions hold, the element mutator passes without patches. -/
def extPure : ExtGo Nat Nat :=
  { evalList := fun _ _ => .ok []
    addElement := fun e i n v => .ok (v + e + i + n)
    loadContext := fun _ v => .ok v
    checkPre := fun _ _ => .ok true
    leafMutate := fun _ _ _ r _ => newResponse .pass r [] ""
    parsePatch := fun p => .ok { op := "add", path := p, value := "v" }
    marshalPatch := fun p => .ok p.path
    addResState := fun _ v => v }

/-- A concrete shared context. -/
def ctx7 : JSONContext Nat := { state := 7, saved := [] }

/-- Specs for a three-declaration rule whose second list expression fails to
evaluate. -/
def spec1 : ForEachSpec := .mk "l1" 0 0 none none

/-- Second spec of the three-declaration rule (its list evaluation fails). -/
def spec2 : ForEachSpec := .mk "l2" 0 0 none none

/-- Third spec of the three-declaration rule. -/
def spec3 : ForEachSpec := .mk "l3" 0 0 none none

/-- Collaborators where evaluating the list `l2` fails and every other list
is empty. -/
def ext7 : ExtGo Nat Nat :=
  { extPure with evalList := fun l _ => if l = "l2" then .error "boom" else .ok [] }

/-- Collaborators where the list evaluates to one element and loading the
spec's context declarations fails. -/
def ext5 : ExtGo Nat Nat :=
  { extPure with
    evalList := fun _ _ => .ok [some 1]
    loadContext := fun _ _ => .error "boom" }

/-- The Fail outcome a policy's element mutator reports, carrying a patch. -/
def failResp : MutResponse :=
  { status := .fail, patchedResource := resA, patches := ["fp"],
    message := "policy rejected", cause := none }

/-- Collaborators where the list evaluates to one element and the element
mutator reports Fail. -/
def ext6 : ExtGo Nat Nat :=
  { extPure with
    evalList := fun _ _ => .ok [some 1]
    leafMutate := fun _ _ _ _ _ => failResp }

/-- Collaborators whose precondition checker returns false for condition
handle 1 and an error for condition handle 2. -/
def ext8 : ExtGo Nat Nat :=
  { extPure with
    checkPre := fun c _ =>
      if c = 1 then .ok false else if c = 2 then .error "bad" else .ok true }

/-- A spec whose preconditions evaluate to false. -/
def specPreFalse : ForEachSpec := .mk "lst" 0 1 none none

/-- A spec whose precondition evaluation fails. -/
def specPreErr : ForEachSpec := .mk "lst" 0 2 none none

/-- Raw collaborators whose `AddResource` always fails (the error is only
logged by the engine). -/
def extE1 : Ext Nat Nat :=
  { evalList := extPure.evalList, addElement := extPure.addElement,
    loadContext := extPure.loadContext, checkPre := extPure.checkPre,
    leafMutate := extPure.leafMutate, parsePatch := extPure.parsePatch,
    marshalPatch := extPure.marshalPatch,
    addResource := fun _ v => (some "add resource failed", v) }

/-- The same raw collaborators with a succeeding `AddResource` that leaves
the state identical. -/
def extE2 : Ext Nat Nat :=
  { extE1 with addResource := fun _ v => (none, v) }

/-- A rule that declares one mutation target. -/
def ruleT : Rule := { name := "r", mutationTargets := 1 }

/-- A Pass outcome carrying one patch and a message that `buildRuleResponse`
replaces. -/
def mPass : MutResponse := newResponse .pass resA ["p"] "orig"

/-- An Error outcome. -/
def mErr : MutResponse := newErrorResponse "boom" (some "cause")

/-! ## Patch composer theory -/

theorem insertionSort_patchLE_eq_of_perm {l l' : List PatchOperation}
    (h : l.Perm l') :
    l.insertionSort patchLE = l'.insertionSort patchLE :=
  List.eq_of_perm_of_sorted
    ((List.perm_insertionSort patchLE l).trans
      (h.trans (List.perm_insertionSort patchLE l').symm))
    (List.sorted_insertionSort patchLE l)
    (List.sorted_insertionSort patchLE l')

theorem dedupLastByPath_sublist : ∀ l, List.Sublist (dedupLastByPath l) l
  | [] => by simp [dedupLastByPath]
  | [p] => by simp [dedupLastByPath]
  | p :: q :: rest => by
    rw [dedupLastByPath]
    split
    · exact (dedupLastByPath_sublist (q :: rest)).cons _
    · exact (dedupLastByPath_sublist (q :: rest)).cons₂ _

theorem dedupLastByPath_head_path :
    ∀ q rest, ∃ h0 t, dedupLastByPath (q :: rest) = h0 :: t ∧ h0.path = q.path
  | q, [] => ⟨q, [], rfl, rfl⟩
  | q, r :: rs => by
    rw [dedupLastByPath]
    split
    · obtain ⟨h0, t, he, hp⟩ := dedupLastByPath_head_path r rs
      next heq => exact ⟨h0, t, he, hp.trans heq.symm⟩
    · exact ⟨q, dedupLastByPath (r :: rs), rfl, rfl⟩

theorem dedupLastByPath_chain :
    ∀ l, (dedupLastByPath l).Chain' (fun a b => a.path ≠ b.path)
  | [] => by simp [dedupLastByPath]
  | [p] => by simp [dedupLastByPath]
  | p :: q :: rest => by
    rw [dedupLastByPath]
    split
    · exact dedupLastByPath_chain (q :: rest)
    · obtain ⟨h0, t, he, hp⟩ := dedupLastByPath_head_path q rest
      rw [he]
      refine List.chain'_cons.mpr ⟨?_, he ▸ dedupLastByPath_chain (q :: rest)⟩
      next hne => exact fun hc => hne (hc.trans hp)

theorem dedupLastByPath_eq_self :
    ∀ l, l.Chain' (fun a b => a.path ≠ b.path) → dedupLastByPath l = l
  | [], _ => rfl
  | [_], _ => rfl
  | p :: q :: rest, h => by
    rw [dedupLastByPath, if_neg (List.chain'_cons.mp h).1,
      dedupLastByPath_eq_self (q :: rest) (List.chain'_cons.mp h).2]

theorem FilterAndSortPatches_sorted (l : List PatchOperation) :
    (FilterAndSortPatches l).Sorted patchLE :=
  List.Pairwise.sublist (dedupLastByPath_sublist _)
    (List.sorted_insertionSort patchLE l)

/-! ## Evaluator lemmas -/

/-- `mutateElements` can only report Pass, Fail or Error: its element loop
never constructs a Skip response. -/
theorem elementLoop_status_ne_skip {V E : Type} (ext : ExtGo V E)
    (rule : String) (foreach : ForEachSpec) (elems : List (Option E)) :
    ∀ (index : Nat) (pr : resourceInfo) (ap : List PatchRaw) (nesting : Nat)
      (ctx : JSONContext V),
      (elementLoop ext rule foreach elems index pr ap nesting ctx).1.status ≠
        .skip := by
  induction elems with
  | nil =>
    intro index pr ap nesting ctx
    simp only [elementLoop]
    repeat' split
    all_goals simp [newErrorResponse, newResponse]
  | cons head rest ih =>
    intro index pr ap nesting ctx
    match head with
    | none =>
      simp only [elementLoop]
      apply ih
    | some el =>
      simp only [elementLoop]
      repeat' split
      all_goals try apply ih
      all_goals try simp [newErrorResponse]
      all_goals rename_i h
      all_goals rcases h with h | h <;> simp [h]


/-- The spec-level response of `mutateElements` is never Skip. -/
theorem mutateElements_status_ne_skip {V E : Type} (ext : ExtGo V E)
    (rule : String) (foreach : ForEachSpec) (elements : List (Option E))
    (res : resourceInfo) (nesting : Nat) (ctx : JSONContext V) :
    (mutateElements ext rule foreach elements res nesting ctx).1.status ≠
      .skip := by
  simp only [mutateElements]
  apply elementLoop_status_ne_skip


/-- When no error occurs, the spec loop of `mutateForEach` counts every
remaining spec into `applyCount` (since per-spec responses are never Skip)
and reports Skip iff the final counter is zero. -/
theorem forEachLoop_characterization {V E : Type} (ext : ExtGo V E)
    (rule : String) (specs : List ForEachSpec) :
    ∀ (applyCount : Nat) (allPatches : List PatchRaw) (res : resourceInfo)
      (nesting : Nat) (ctx : JSONContext V),
      (forEachLoop ext rule specs applyCount allPatches res nesting
          ctx).1.status ≠ .error →
      (forEachLoop ext rule specs applyCount allPatches res nesting
          ctx).1.status =
        (if applyCount + specs.length = 0 then RuleStatus.skip
          else RuleStatus.pass) ∧
      (forEachLoop ext rule specs applyCount allPatches res nesting
          ctx).1.message =
        toString (applyCount + specs.length) ++ " elements processed" := by
  induction specs with
  | nil =>
    intro applyCount allPatches res nesting ctx _
    simp only [forEachLoop, List.length_nil, Nat.add_zero]
    split
    · next h =>
      refine ⟨by simp [h, newResponse], ?_⟩
      simp only [newResponse]
      rfl
    · next h =>
      refine ⟨by simp [h, newResponse], ?_⟩
      simp only [newResponse]
      rfl
  | cons foreach rest ih =>
    intro applyCount allPatches res nesting ctx hne
    rcases heval : ext.evalList foreach.listExpr ctx.state with e | elements
    · simp [forEachLoop, heval, newErrorResponse] at hne
    · by_cases herr :
        (mutateElements ext rule foreach elements res nesting ctx).1.status =
          .error
      · simp [forEachLoop, heval, herr, newErrorResponse] at hne
      · have hskip := mutateElements_status_ne_skip ext rule foreach elements
          res nesting ctx
        simp only [forEachLoop, heval] at hne ⊢
        rw [if_neg herr, if_pos hskip] at hne ⊢
        have h1 := ih _ _ _ _ _ hne
        refine ⟨?_, ?_⟩
        · rw [h1.1]
          have hx : ¬(applyCount + 1 + rest.length = 0) := by omega
          have hy : ¬(applyCount + (foreach :: rest).length = 0) := by
            simp only [List.length_cons]
            omega
          rw [if_neg hx, if_neg hy]
        · rw [h1.2]
          have hx : applyCount + 1 + rest.length =
              applyCount + (foreach :: rest).length := by
            simp only [List.length_cons]
            omega
          rw [hx]



/-- Joint context discipline, by strong induction on the size of the spec
tree: the spec loop of `mutateForEach` never changes the checkpoint stack
(it only rewrites the mutable state via Reset/AddResource inside
`mutateElements`, which checkpoints and restores), and the element loop —
entered with a freshly pushed checkpoint — always exits by popping exactly
that checkpoint, on every return path. -/
theorem ctxJoint {V E : Type} (ext : ExtGo V E) (rule : String) :
    ∀ N : Nat,
      (∀ specs : List ForEachSpec, sizeOf specs ≤ N →
        ∀ (applyCount : Nat) (allPatches : List PatchRaw) (res : resourceInfo)
          (nesting : Nat) (ctx : JSONContext V),
          (forEachLoop ext rule specs applyCount allPatches res nesting
              ctx).2.saved = ctx.saved) ∧
      (∀ foreach : ForEachSpec, sizeOf foreach ≤ N →
        ∀ (elems : List (Option E)) (index : Nat) (pr : resourceInfo)
          (ap : List PatchRaw) (nesting : Nat) (ctx : JSONContext V)
          (s : V) (t : List V), ctx.saved = s :: t →
          (elementLoop ext rule foreach elems index pr ap nesting ctx).2 =
            { state := s, saved := t }) := by
  intro N
  induction N using Nat.strong_induction_on with
  | _ N IH =>
    constructor
    · intro specs hs applyCount allPatches res nesting ctx
      match specs with
      | [] =>
        simp only [forEachLoop]
        split <;> rfl
      | foreach :: rest =>
        have hf : sizeOf foreach < N := by
          have h1 : sizeOf foreach < sizeOf (foreach :: rest) := by
            simp only [List.cons.sizeOf_spec]
            omega
          omega
        have hr : sizeOf rest < N := by
          have h1 : sizeOf rest < sizeOf (foreach :: rest) := by
            simp only [List.cons.sizeOf_spec]
            omega
          omega
        have hmE : ∀ (elements : List (Option E)),
            (mutateElements ext rule foreach elements res nesting ctx).2 =
              ctx := by
          intro elements
          simp only [mutateElements]
          have := (IH (sizeOf foreach) hf).2 foreach le_rfl
            (orderedElements foreach elements) 0 res [] nesting
            ctx.checkpoint ctx.state ctx.saved rfl
          rw [this]
        simp only [forEachLoop]
        split
        · rfl
        · next elements heval =>
          split
          · rw [hmE elements]
          · split
            · rw [(IH (sizeOf rest) hr).1 rest le_rfl]
              first
                | rfl
                | simp [hmE elements]
            · rw [(IH (sizeOf rest) hr).1 rest le_rfl]
              first
                | rfl
                | rw [hmE elements]
    · intro foreach hs elems
      induction elems with
      | nil =>
        intro index pr ap nesting ctx s t hsaved
        simp only [elementLoop]
        split
        · simp [JSONContext.restore, hsaved]
        · split
          · simp [JSONContext.restore, hsaved]
          · simp [JSONContext.restore, hsaved]
      | cons head rest ihe =>
        intro index pr ap nesting ctx s t hsaved
        match head with
        | none =>
          simp only [elementLoop]
          exact ihe (index + 1) pr ap nesting ctx s t hsaved
        | some el =>
          have hreset : ctx.reset = { state := s, saved := s :: t } := by
            simp [JSONContext.reset, hsaved]
          have hrsaved : ctx.reset.saved = s :: t := by
            rw [hreset]
          simp only [elementLoop]
          split
          · simp [JSONContext.restore, hrsaved, hreset]
          · split
            · simp [JSONContext.restore, hrsaved, hreset]
            · split
              · simp [JSONContext.restore, hrsaved, hreset]
              · exact ihe _ _ _ _ _ s t hrsaved
              · split
                · simp [JSONContext.restore, hrsaved, hreset]
                · next nestedSpecs hnest =>
                  have hn : sizeOf nestedSpecs < N :=
                    lt_of_lt_of_le (ForEachSpec.sizeOf_nested hnest) hs
                  have hsv : (mutateForEach ext rule nestedSpecs pr
                      (nesting + 1) ctx.reset).2.saved = s :: t := by
                    simp only [mutateForEach]
                    rw [(IH (sizeOf nestedSpecs) hn).1 nestedSpecs le_rfl]
                    exact hrsaved
                  split
                  · simp [JSONContext.restore, hsv]
                  · exact ihe _ _ _ _ _ s t hsv
                · split
                  · simp [JSONContext.restore, hrsaved, hreset]
                  · exact ihe _ _ _ _ _ s t hrsaved


/-- The element loop is insensitive to the mutable state component of the
shared context: whatever a previous iteration (or a nested rule evaluation)
wrote into `state`, the next iteration behaves identically, because every
non-nil element starts with Reset (which rewinds `state` to the checkpoint)
and the epilogue only pops the checkpoint. -/
theorem elementLoop_state_insensitive {V E : Type} (ext : ExtGo V E)
    (rule : String) (foreach : ForEachSpec) (elems : List (Option E)) :
    ∀ (index : Nat) (pr : resourceInfo) (ap : List PatchRaw) (nesting : Nat)
      (st₁ st₂ s : V) (t : List V),
      elementLoop ext rule foreach elems index pr ap nesting
          { state := st₁, saved := s :: t } =
        elementLoop ext rule foreach elems index pr ap nesting
          { state := st₂, saved := s :: t } := by
  induction elems with
  | nil =>
    intro index pr ap nesting st₁ st₂ s t
    simp only [elementLoop, JSONContext.restore]
  | cons head rest ih =>
    intro index pr ap nesting st₁ st₂ s t
    match head with
    | none =>
      simp only [elementLoop]
      exact ih (index + 1) pr ap nesting st₁ st₂ s t
    | some el =>
      simp only [elementLoop, JSONContext.reset]



/-! ## Claims -/

/-- Claim C2: patch composition is a pure function of the logical patch set —
for every patch set and every permutation of its input order, composing it
(and composing it twice) yields identical ordered output; conflicts on the
exact same path are resolved by the deterministic order, not input arrival
order. -/
theorem claim_C2 (l l' : List PatchOperation) (h : l.Perm l') :
    FilterAndSortPatches l = FilterAndSortPatches l' ∧
    FilterAndSortPatches (FilterAndSortPatches l) = FilterAndSortPatches l := by
  constructor
  · unfold FilterAndSortPatches
    rw [insertionSort_patchLE_eq_of_perm h]
  · have hs : (FilterAndSortPatches l).Sorted patchLE :=
      FilterAndSortPatches_sorted l
    conv =>
      lhs
      rw [FilterAndSortPatches, List.Sorted.insertionSort_eq hs]
    rw [dedupLastByPath_eq_self _
      (FilterAndSortPatches.eq_def l ▸ dedupLastByPath_chain _)]

/-- Witness for C2: a concrete permuted patch set with a same-path conflict
(`patchA` and `patchC` target the exact same path); the composed output is
also evaluated explicitly. -/
theorem claim_C2_witness :
    ([patchB, patchC, patchA, patchD].Perm [patchA, patchD, patchB, patchC]) ∧
    (FilterAndSortPatches [patchB, patchC, patchA, patchD] =
        FilterAndSortPatches [patchA, patchD, patchB, patchC] ∧
      FilterAndSortPatches (FilterAndSortPatches [patchB, patchC, patchA, patchD]) =
        FilterAndSortPatches [patchB, patchC, patchA, patchD]) ∧
    FilterAndSortPatches [patchB, patchC, patchA, patchD] =
      [patchC, patchB, patchD] :=
  ⟨by decide, claim_C2 _ _ (by decide), by decide⟩

/-- Claim C3: for every foreach spec, elements are processed in reverse
declared order iff the spec's patch strategy is strategic merge
(`RawPatchStrategicMerge` non-nil); for jsonPatch/overlay specs they are
processed in declared order (lines 73-75). -/
theorem claim_C3 {E : Type} (foreach : ForEachSpec) (elems : List (Option E)) :
    (foreach.rawPatchStrategicMerge.isSome →
      orderedElements foreach elems = elems.reverse) ∧
    (foreach.rawPatchStrategicMerge = none →
      orderedElements foreach elems = elems) := by
  constructor
  · intro h
    simp [orderedElements, h]
  · intro h
    simp [orderedElements, h]

/-- Witness for C3: a strategic-merge spec reverses a two-element list, a
jsonPatch spec keeps it in declared order. -/
theorem claim_C3_witness :
    (orderedElements specStrat [some 1, some 2] = [some 2, some 1]) ∧
    (orderedElements specJson [some (1 : Nat), some 2] = [some 1, some 2]) :=
  ⟨(claim_C3 specStrat [some 1, some 2]).1 (by decide),
   (claim_C3 specJson [some 1, some 2]).2 rfl⟩

/-- Claim C9: the rule response builder attaches the composed patch set (and,
when the rule declares mutation targets, the patched-target reference) only
when the outcome status is Pass; on Pass the message is synthesized from the
patched resource's kind/name/namespace with the namespace clause omitted when
the namespace is empty, and on any other status the outcome's message is
passed through unchanged. -/
theorem claim_C9 (rule : Rule) (m : MutResponse) (info : resourceInfo) :
    (m.status = .pass →
      (buildRuleResponse rule m info).patches = m.patches ∧
      (buildRuleResponse rule m info).message =
        buildSuccessMessage m.patchedResource ∧
      (rule.mutationTargets ≠ 0 →
        (buildRuleResponse rule m info).patchedTarget =
          some (m.patchedResource, info.parentResourceGVR, info.subresource)) ∧
      (rule.mutationTargets = 0 →
        (buildRuleResponse rule m info).patchedTarget = none)) ∧
    (m.status ≠ .pass →
      (buildRuleResponse rule m info).patches = [] ∧
      (buildRuleResponse rule m info).patchedTarget = none ∧
      (buildRuleResponse rule m info).message = m.message) ∧
    (∀ k n : String,
      buildSuccessMessage { obj := some { kind := k, name := n, ns := "" } } =
        s!"mutated {k}/{n}") ∧
    (∀ k n ns : String, ns ≠ "" →
      buildSuccessMessage { obj := some { kind := k, name := n, ns := ns } } =
        s!"mutated {k}/{n} in namespace {ns}") := by
  refine ⟨?_, ?_, ?_, ?_⟩
  · intro hp
    refine ⟨?_, ?_, ?_, ?_⟩
    · simp [buildRuleResponse, hp, newRuleResponse, RuleResponse.withPatches,
        RuleResponse.withPatchedTarget]
      split <;> rfl
    · simp [buildRuleResponse, hp, newRuleResponse, RuleResponse.withPatches,
        RuleResponse.withPatchedTarget]
      split <;> rfl
    · intro ht
      simp [buildRuleResponse, hp, ht, newRuleResponse,
        RuleResponse.withPatches, RuleResponse.withPatchedTarget]
    · intro ht
      simp [buildRuleResponse, hp, ht, newRuleResponse,
        RuleResponse.withPatches, RuleResponse.withPatchedTarget]
  · intro hp
    refine ⟨?_, ?_, ?_⟩ <;>
      simp [buildRuleResponse, hp, newRuleResponse, RuleResponse.withPatches,
        RuleResponse.withPatchedTarget]
  · intro k n
    simp [buildSuccessMessage]
  · intro k n ns hns
    simp [buildSuccessMessage, hns]

/-- Witness for C9 at concrete inputs: a Pass outcome with one declared
target, an Error outcome, and the success-message synthesis with and without
a namespace. -/
theorem claim_C9_witness :
    ((buildRuleResponse ruleT mPass infoA).patches = mPass.patches ∧
      (buildRuleResponse ruleT mPass infoA).patchedTarget =
        some (mPass.patchedResource, infoA.parentResourceGVR, infoA.subresource) ∧
      (buildRuleResponse ruleT mErr infoA).patches = [] ∧
      (buildRuleResponse ruleT mErr infoA).message = mErr.message) ∧
    buildSuccessMessage resA = "mutated Pod/nginx in namespace prod" ∧
    buildSuccessMessage { obj := some { kind := "Pod", name := "nginx", ns := "" } } =
      "mutated Pod/nginx" :=
  ⟨⟨((claim_C9 ruleT mPass infoA).1 rfl).1,
    ((claim_C9 ruleT mPass infoA).1 rfl).2.2.1 (by decide),
    ((claim_C9 ruleT mErr infoA).2.1 (by decide)).1,
    ((claim_C9 ruleT mErr infoA).2.1 (by decide)).2.2⟩,
   by decide, by decide⟩

/-- Claim C4: a checkpoint is taken before iterating and the context is
restored on every exit path — `mutateElements` returns the shared context
exactly as it received it (success, skip and error paths alike) — and
context bindings added while processing element K are not visible when
processing element K+1 of the same spec (the loop result is independent of
the mutable state component), nor to sibling specs of the same rule (which
see the unchanged restored context). -/
theorem claim_C4 {V E : Type} (ext : ExtGo V E) (rule : String)
    (foreach : ForEachSpec) :
    (∀ (elements : List (Option E)) (res : resourceInfo) (nesting : Nat)
        (ctx : JSONContext V),
      (mutateElements ext rule foreach elements res nesting ctx).2 = ctx) ∧
    (∀ (elems : List (Option E)) (index : Nat) (pr : resourceInfo)
        (ap : List PatchRaw) (nesting : Nat) (st₁ st₂ s : V) (t : List V),
      elementLoop ext rule foreach elems index pr ap nesting
          { state := st₁, saved := s :: t } =
        elementLoop ext rule foreach elems index pr ap nesting
          { state := st₂, saved := s :: t }) := by
  constructor
  · intro elements res nesting ctx
    simp only [mutateElements]
    rw [(ctxJoint ext rule (sizeOf foreach)).2 foreach le_rfl
      (orderedElements foreach elements) 0 res [] nesting ctx.checkpoint
      ctx.state ctx.saved rfl]
  · intro elems index pr ap nesting st₁ st₂ s t
    exact elementLoop_state_insensitive ext rule foreach elems index pr ap
      nesting st₁ st₂ s t



/-- Claim C7: a list-evaluation failure on any spec (lines 34-39) immediately
yields an Error outcome for the whole rule that contributes zero patches,
regardless of the apply counter, patch set and resource accumulated from
earlier specs — no partial results are returned. -/
theorem claim_C7 {V E : Type} (ext : ExtGo V E) (rule : String)
    (foreach : ForEachSpec) (rest : List ForEachSpec) (applyCount : Nat)
    (allPatches : List PatchRaw) (res : resourceInfo) (nesting : Nat)
    (ctx : JSONContext V) (e : String)
    (h : ext.evalList foreach.listExpr ctx.state = .error e) :
    (forEachLoop ext rule (foreach :: rest) applyCount allPatches res nesting
        ctx).1.status = .error ∧
    (forEachLoop ext rule (foreach :: rest) applyCount allPatches res nesting
        ctx).1.patches = [] ∧
    (forEachLoop ext rule (foreach :: rest) applyCount allPatches res nesting
        ctx).1.cause = some e ∧
    (forEachLoop ext rule (foreach :: rest) applyCount allPatches res nesting
        ctx).2 = ctx := by
  refine ⟨?_, ?_, ?_, ?_⟩
  all_goals simp only [forEachLoop, h]
  all_goals rfl

/-- Witness for C7: spec 2 of 3 fails its list evaluation in the loop state
reached after a successful first spec (apply counter 1, one accumulated
patch); the outcome is the Error response with no patches, and the
end-to-end three-spec rule evaluation yields the same Error response. -/
theorem claim_C7_witness :
    (ext7.evalList spec2.listExpr ctx7.state = .error "boom") ∧
    ((forEachLoop ext7 "r" [spec2, spec3] 1 ["earlier"] infoA 0
          ctx7).1.status = .error ∧
      (forEachLoop ext7 "r" [spec2, spec3] 1 ["earlier"] infoA 0
          ctx7).1.patches = [] ∧
      (forEachLoop ext7 "r" [spec2, spec3] 1 ["earlier"] infoA 0
          ctx7).1.cause = some "boom" ∧
      (forEachLoop ext7 "r" [spec2, spec3] 1 ["earlier"] infoA 0
          ctx7).2 = ctx7) ∧
    (mutateForEach ext7 "r" [spec1, spec2, spec3] infoA 0 ctx7).1 =
      newErrorResponse "failed to evaluate list l2: boom" (some "boom") := by
  refine ⟨rfl, claim_C7 ext7 "r" spec2 [spec3] 1 ["earlier"] infoA 0 ctx7
    "boom" rfl, ?_⟩
  simp [mutateForEach, forEachLoop, mutateElements, elementLoop, ext7,
    extPure, spec1, spec2, orderedElements, convertPatches, marshalPatches,
    FilterAndSortPatches, dedupLastByPath, newResponse, newErrorResponse,
    JSONContext.checkpoint, JSONContext.restore, ForEachSpec.listExpr,
    ForEachSpec.rawPatchStrategicMerge, ForEachSpec.nested]
  all_goals rfl

/-- Claim C8: an element whose preconditions evaluate to false is not an
error — it is logged and skipped, the loop continues with the next element,
and the accumulated resource and patch set are unchanged (the element is not
counted and contributes no patches); a precondition-evaluation failure, by
contrast, aborts the spec with a fatal Error (restoring the context). -/
theorem claim_C8 {V E : Type} (ext : ExtGo V E) (rule : String)
    (foreach : ForEachSpec) (el : E) (rest : List (Option E)) (index : Nat)
    (pr : resourceInfo) (ap : List PatchRaw) (nesting : Nat)
    (ctx : JSONContext V) (v1 v2 : V)
    (hadd : ext.addElement el index nesting ctx.reset.state = .ok v1)
    (hload : ext.loadContext foreach.ctxId v1 = .ok v2) :
    (ext.checkPre foreach.condId v2 = .ok false →
      elementLoop ext rule foreach (some el :: rest) index pr ap nesting ctx =
        elementLoop ext rule foreach rest (index + 1) pr ap nesting
          ctx.reset) ∧
    (∀ e : String, ext.checkPre foreach.condId v2 = .error e →
      elementLoop ext rule foreach (some el :: rest) index pr ap nesting ctx =
        (newErrorResponse
          s!"failed to evaluate mutate.foreach[{index}].preconditions"
          (some e), ctx.reset.restore)) := by
  constructor
  · intro hpre
    simp only [elementLoop, hadd, hload, hpre]
  · intro e hpre
    simp only [elementLoop, hadd, hload, hpre]

/-- Witness for C8: with condition handle 1 (preconditions false) element 0
is skipped and the loop moves on unchanged; with condition handle 2
(precondition evaluation error) the spec aborts with the Error response. -/
theorem claim_C8_witness :
    (elementLoop ext8 "r" specPreFalse [some 1, some 2] 0 infoA ["p0"] 0
        ctx7.checkpoint =
      elementLoop ext8 "r" specPreFalse [some 2] 1 infoA ["p0"] 0
        ctx7.checkpoint.reset) ∧
    (elementLoop ext8 "r" specPreErr [some 1] 0 infoA [] 0 ctx7.checkpoint =
      (newErrorResponse "failed to evaluate mutate.foreach[0].preconditions"
        (some "bad"), ctx7.checkpoint.reset.restore)) :=
  ⟨(claim_C8 ext8 "r" specPreFalse 1 [some 2] 0 infoA ["p0"] 0
      ctx7.checkpoint 8 8 rfl rfl).1 rfl,
   (claim_C8 ext8 "r" specPreErr 1 [] 0 infoA [] 0 ctx7.checkpoint 8 8
      rfl rfl).2 "bad" rfl⟩

/-- Claim C5 (code bug at line 43): at a failing input whose context loading
fails with cause "boom", the spec-level outcome is the Error response
"failed to load to mutate.foreach[0].context" carrying that cause, but
`mutateForEach` rebuilds the rule-level outcome as "failed to mutate
elements" with a nil cause — the local `err` it passes is the provably-nil
error of the preceding `EvaluateList` call — so the element-level error does
not propagate upward unchanged and its cause is lost. -/
theorem claim_C5 :
    (mutateElements ext5 "r" specJson [some 1] infoA 0 ctx7).1 =
      newErrorResponse "failed to load to mutate.foreach[0].context"
        (some "boom") ∧
    (mutateForEach ext5 "r" [specJson] infoA 0 ctx7).1 =
      newErrorResponse "failed to mutate elements" none := by
  constructor
  all_goals
    simp [mutateForEach, forEachLoop, mutateElements, elementLoop, ext5,
      extPure, specJson, orderedElements, JSONContext.checkpoint,
      JSONContext.reset, JSONContext.restore, ForEachSpec.listExpr,
      ForEachSpec.rawPatchStrategicMerge, ForEachSpec.ctxId,
      ForEachSpec.nested, newErrorResponse]
  all_goals rfl

/-- Claim C1 as amended: absent errors, `mutateForEach` returns Skip with
message "0 elements processed" iff the rule declares zero foreach specs;
otherwise it returns Pass with message "`<n>` elements processed" where `n`
counts foreach specs, not elements passing preconditions (each spec counts
because `mutateElements` never reports Skip, even for an empty element
list). -/
theorem claim_C1_amended {V E : Type} (ext : ExtGo V E) (rule : String)
    (specs : List ForEachSpec) (res : resourceInfo) (nesting : Nat)
    (ctx : JSONContext V)
    (h : (mutateForEach ext rule specs res nesting ctx).1.status ≠ .error) :
    (specs = [] →
      (mutateForEach ext rule specs res nesting ctx).1.status = .skip ∧
      (mutateForEach ext rule specs res nesting ctx).1.message =
        "0 elements processed" ∧
      (mutateForEach ext rule specs res nesting ctx).1.patches = []) ∧
    (specs ≠ [] →
      (mutateForEach ext rule specs res nesting ctx).1.status = .pass ∧
      (mutateForEach ext rule specs res nesting ctx).1.message =
        toString specs.length ++ " elements processed") := by
  constructor
  · intro hnil
    subst hnil
    refine ⟨?_, ?_, ?_⟩
    all_goals simp [mutateForEach, forEachLoop, newResponse]
    all_goals rfl
  · intro hcons
    have hc := forEachLoop_characterization ext rule specs 0 [] res nesting
      ctx (by simpa [mutateForEach] using h)
    have hlen : ¬(0 + specs.length = 0) := by
      rcases specs with _ | ⟨a, l⟩
      · exact absurd rfl hcons
      · simp
    constructor
    · have h1 := hc.1
      rw [if_neg hlen] at h1
      simpa [mutateForEach] using h1
    · have h2 := hc.2
      rw [Nat.zero_add] at h2
      simpa [mutateForEach] using h2


/-- Witness for the amended C1: one spec with an empty list gives Pass
"1 elements processed"; zero specs give Skip "0 elements processed" with no
patches. -/
theorem claim_C1_amended_witness :
    ((specJson :: []) ≠ ([] : List ForEachSpec)) ∧
    ((mutateForEach extPure "r" [specJson] infoA 0 ctx7).1.status = .pass ∧
      (mutateForEach extPure "r" [specJson] infoA 0 ctx7).1.message =
        "1 elements processed") ∧
    ((mutateForEach extPure "r" [] infoA 0 ctx7).1.status = .skip ∧
      (mutateForEach extPure "r" [] infoA 0 ctx7).1.message =
        "0 elements processed" ∧
      (mutateForEach extPure "r" [] infoA 0 ctx7).1.patches = []) :=
  ⟨List.cons_ne_nil specJson [],
   (claim_C1_amended extPure "r" [specJson] infoA 0 ctx7
      (by
        simp [mutateForEach, forEachLoop, mutateElements, elementLoop,
          extPure, specJson, orderedElements, convertPatches, marshalPatches,
          FilterAndSortPatches, dedupLastByPath, newResponse,
          JSONContext.checkpoint, JSONContext.restore, ForEachSpec.listExpr,
          ForEachSpec.rawPatchStrategicMerge, ForEachSpec.nested])).2
     (List.cons_ne_nil specJson []),
   (claim_C1_amended extPure "r" [] infoA 0 ctx7
      (by simp [mutateForEach, forEachLoop, newResponse])).1 rfl⟩


/-- Counterexample to C1: a rule with one foreach spec whose list is empty —
zero elements pass preconditions (there are none), yet the outcome is Pass
with message "1 elements processed", not Skip with "0 elements processed":
the applied counter counts specs, not elements, and `mutateElements` never
reports Skip. -/
theorem claim_C1_counterexample :
    (mutateForEach extPure "r" [specJson] infoA 0 ctx7).1.status = .pass ∧
    (mutateForEach extPure "r" [specJson] infoA 0 ctx7).1.message =
      "1 elements processed" := by
  constructor
  all_goals
    simp [mutateForEach, forEachLoop, mutateElements, elementLoop, extPure,
      specJson, orderedElements, convertPatches, marshalPatches,
      FilterAndSortPatches, dedupLastByPath, newResponse,
      JSONContext.checkpoint, JSONContext.restore, ForEachSpec.listExpr,
      ForEachSpec.rawPatchStrategicMerge, ForEachSpec.nested]
  all_goals rfl

/-- Counterexample to C6: the element mutator reports Fail for the only
element, `mutateElements` returns that Fail immediately, but `mutateForEach`
checks only for Error — the Fail spec is counted as applied, its patches are
kept, and the rule reports Pass "1 elements processed". -/
theorem claim_C6_counterexample :
    (ext6.leafMutate "r" specJson 8 resA 1).status = .fail ∧
    (mutateForEach ext6 "r" [specJson] infoA 0 ctx7).1.status = .pass ∧
    (mutateForEach ext6 "r" [specJson] infoA 0 ctx7).1.patches = ["fp"] ∧
    (mutateForEach ext6 "r" [specJson] infoA 0 ctx7).1.message =
      "1 elements processed" := by
  refine ⟨rfl, ?_, ?_, ?_⟩
  all_goals
    simp [mutateForEach, forEachLoop, mutateElements, elementLoop, ext6,
      extPure, specJson, failResp, orderedElements, newResponse,
      JSONContext.checkpoint, JSONContext.reset, JSONContext.restore,
      ForEachSpec.listExpr, ForEachSpec.rawPatchStrategicMerge,
      ForEachSpec.nested, ForEachSpec.ctxId, ForEachSpec.condId]
  all_goals rfl

/-- Claim C6 as amended: a per-element outcome with status Fail or Error is
returned immediately by the element loop, aborting the whole spec (with the
context restored); a spec-level Error then aborts the whole rule as the
rule-level Error response.  (A spec-level Fail, however, does not abort the
rule: as the counterexample shows, the rule can still report Pass.) -/
theorem claim_C6_amended {V E : Type} (ext : ExtGo V E) (rule : String)
    (foreach : ForEachSpec) :
    (∀ (el : E) (rest : List (Option E)) (index : Nat) (pr : resourceInfo)
        (ap : List PatchRaw) (nesting : Nat) (ctx : JSONContext V) (v1 v2 : V),
      ext.addElement el index nesting ctx.reset.state = .ok v1 →
      ext.loadContext foreach.ctxId v1 = .ok v2 →
      ext.checkPre foreach.condId v2 = .ok true →
      foreach.nested = none →
      ((ext.leafMutate rule foreach v2 pr.unstructured el).status = .fail ∨
        (ext.leafMutate rule foreach v2 pr.unstructured el).status = .error) →
      elementLoop ext rule foreach (some el :: rest) index pr ap nesting ctx =
        (ext.leafMutate rule foreach v2 pr.unstructured el,
          ctx.reset.restore)) ∧
    (∀ (rest : List ForEachSpec) (applyCount : Nat)
        (allPatches : List PatchRaw) (res : resourceInfo) (nesting : Nat)
        (ctx : JSONContext V) (elements : List (Option E)),
      ext.evalList foreach.listExpr ctx.state = .ok elements →
      (mutateElements ext rule foreach elements res nesting ctx).1.status =
        .error →
      forEachLoop ext rule (foreach :: rest) applyCount allPatches res nesting
          ctx =
        (newErrorResponse "failed to mutate elements" none,
          (mutateElements ext rule foreach elements res nesting ctx).2)) := by
  constructor
  · intro el rest index pr ap nesting ctx v1 v2 hadd hload hpre hnested hm
    simp only [elementLoop, hadd, hload, hpre]
    split
    · rename_i err heq
      rw [hnested] at heq
      cases heq
    · rename_i nestedSpecs heq
      rw [hnested] at heq
      cases heq
    · rw [if_pos hm]
  · intro rest applyCount allPatches res nesting ctx elements heval herr
    simp only [forEachLoop, heval]
    rw [if_pos herr]


/-- Witness for the amended C6: the Fail of a concrete element mutator is
returned as-is by the element loop, and a spec-level Error becomes the
rule-level "failed to mutate elements" Error response. -/
theorem claim_C6_amended_witness :
    (elementLoop ext6 "r" specJson [some 1] 0 infoA [] 0 ctx7.checkpoint =
      (failResp, ctx7.checkpoint.reset.restore)) ∧
    (forEachLoop ext5 "r" [specJson] 0 [] infoA 0 ctx7 =
      (newErrorResponse "failed to mutate elements" none,
        (mutateElements ext5 "r" specJson [some 1] infoA 0 ctx7).2)) :=
  ⟨(claim_C6_amended ext6 "r" specJson).1 1 [] 0 infoA [] 0 ctx7.checkpoint
      8 8 rfl rfl rfl rfl (Or.inl rfl),
   (claim_C6_amended ext5 "r" specJson).2 [] 0 [] infoA 0 ctx7 [some 1] rfl
     (by
       simp [mutateElements, elementLoop, ext5, extPure, specJson,
         orderedElements, JSONContext.checkpoint, JSONContext.reset,
         JSONContext.restore, ForEachSpec.rawPatchStrategicMerge,
         ForEachSpec.ctxId, newErrorResponse])⟩


/-- Claim C10: the error returned by the `AddResource` call that feeds the
patched resource back into the shared JSON context is only logged — two raw
collaborator bundles whose `AddResource` calls agree on the resulting
context state (but may disagree on the returned error) produce identical
rule evaluations, and the evaluator consumes exactly the state component of
`AddResource`. -/
theorem claim_C10 {V E : Type} (e₁ e₂ : Ext V E)
    (hEval : e₁.evalList = e₂.evalList)
    (hAddEl : e₁.addElement = e₂.addElement)
    (hLoad : e₁.loadContext = e₂.loadContext)
    (hPre : e₁.checkPre = e₂.checkPre)
    (hLeaf : e₁.leafMutate = e₂.leafMutate)
    (hParse : e₁.parsePatch = e₂.parsePatch)
    (hMarshal : e₁.marshalPatch = e₂.marshalPatch)
    (hAddRes : ∀ r v, (e₁.addResource r v).2 = (e₂.addResource r v).2)
    (rule : String) (specs : List ForEachSpec) (res : resourceInfo)
    (nesting : Nat) (ctx : JSONContext V) :
    mutateForEachExt e₁ rule specs res nesting ctx =
      mutateForEachExt e₂ rule specs res nesting ctx ∧
    (∀ r v, (Ext.go e₁).addResState r v = (e₁.addResource r v).2) := by
  constructor
  · unfold mutateForEachExt
    have hgo : e₁.go = e₂.go := by
      unfold Ext.go
      rw [hEval, hAddEl, hLoad, hPre, hLeaf, hParse, hMarshal]
      have : (fun r v => (e₁.addResource r v).2) =
          fun r v => (e₂.addResource r v).2 := by
        funext r v
        exact hAddRes r v
      rw [this]
    rw [hgo]
  · intro r v
    rfl

/-- Witness for C10: a bundle whose `AddResource` always fails against the
same bundle with a succeeding, state-identical `AddResource`: the rule
evaluations coincide. -/
theorem claim_C10_witness :
    mutateForEachExt extE1 "r" [specJson] infoA 0 ctx7 =
      mutateForEachExt extE2 "r" [specJson] infoA 0 ctx7 :=
  (claim_C10 extE1 extE2 rfl rfl rfl rfl rfl rfl rfl (fun _ _ => rfl)
    "r" [specJson] infoA 0 ctx7).1

end KyvernoMutation
